import Mathlib

/-!
Verification of the core of a multi-room Blackjack game server
(`server_src`): protocol codec, bet placement, hand evaluation, round
settlement, room state machine and lobby bookkeeping.

The C++ sources are shallowly embedded: `std::string` becomes `List Char`,
the heap of `Player` objects becomes a function from player ids to player
records, `std::map` containers become association lists, and fallible
operations (`std::stoi` throwing, reads of `std::deque::front` on an empty
deque) become `Option`-valued definitions.
-/

set_option autoImplicit false

namespace UPS

/-- Character sequences standing for `std::string`. -/
abbrev Str := List Char

/-- Helper for the loop of `Utils::splitString` (Utils.h).  `acc` holds the
characters of the token being read, in reverse.  At end of input,
`std::getline` fails without producing a token when nothing remains, so the
pending token is emitted only when non-empty; a token ended by a delimiter
is always emitted, even when empty. -/
def splitStringGo (d : Char) (acc : Str) : Str → List Str
  | [] => if acc = [] then [] else [acc.reverse]
  | c :: cs =>
    if c = d then acc.reverse :: splitStringGo d [] cs
    else splitStringGo d (c :: acc) cs

/-- Model of `Utils::splitString` (Utils.h): split on a delimiter with
`std::getline` semantics (a trailing delimiter does not produce a final
empty token, and an empty input produces no tokens). -/
def splitString (s : Str) (d : Char) : List Str :=
  splitStringGo d [] s

/-- Character class of C `isspace` in the default locale, used by
`std::stoi` to skip leading whitespace. -/
def isCSpace (c : Char) : Bool :=
  c = ' ' || c = '\t' || c = '\n' || c = '\x0b' || c = '\x0c' || c = '\r'

/-- ASCII decimal digit test, as used by `std::stoi`. -/
def isCDigit (c : Char) : Bool :=
  '0' ≤ c && c ≤ '9'

/-- Numeric value of a run of decimal digits. -/
def digitsToNat (ds : Str) : Nat :=
  ds.foldl (fun a c => a * 10 + (c.toNat - 48)) 0

/-- Model of `std::stoi` on a 32-bit `int`: skip leading whitespace, read an
optional sign and a non-empty run of decimal digits (further characters are
ignored), and fail (`none`, i.e. a thrown `std::invalid_argument` or
`std::out_of_range`) when there is no digit or the value does not fit in
`int`. -/
def stoi? (s : Str) : Option Int :=
  let s1 := s.dropWhile isCSpace
  let signed : Bool × Str :=
    match s1 with
    | '-' :: r => (true, r)
    | '+' :: r => (false, r)
    | _ => (false, s1)
  let ds := signed.2.takeWhile isCDigit
  if ds = [] then none
  else
    let v : Int := if signed.1 then -(digitsToNat ds : Int) else (digitsToNat ds : Int)
    if v < -2147483648 ∨ 2147483647 < v then none else some v

/-- Model of `std::to_string` on `int`. -/
def intToStr (n : Int) : Str :=
  (toString n).data

/-- Parsed protocol message (Message.h). -/
structure Message where
  command : Str
  args : List Str
  valid : Bool
  deriving Repr, DecidableEq

/-- Default-constructed `Message` (Message.h): invalid, empty fields. -/
def Message.mk0 : Message := ⟨[], [], false⟩

namespace Parser

/-- Model of `Parser::parse` (Parser.h): reject the empty line, split on
a colon, require at least two tokens, the first equal to `BJ` and the
second of length exactly 8; uppercase the command token, and keep the
remaining tokens as arguments. -/
def parse (rawLine : Str) : Message :=
  if rawLine = [] then Message.mk0
  else
    match splitString rawLine ':' with
    | t0 :: t1 :: rest =>
      if t0 ≠ "BJ".data then Message.mk0
      else if t1.length ≠ 8 then Message.mk0
      else { command := t1.map Char.toUpper, args := rest, valid := true }
    | _ => Message.mk0

end Parser

/-- Model of the frame built by `TcpServer::sendMessage`
(TcpServer.cpp): `"BJ:" + command`, then `":" + args` when `args` is
non-empty, then a terminating newline unless the message already ends in
one. -/
def sendMessageWire (command args : Str) : Str :=
  let m := "BJ:".data ++ command ++ (if args = [] then [] else ':' :: args)
  if m.getLast? = some '\n' then m else m ++ ['\n']

/-- Rank strings drawn by `GameRoom::generateCard` (GameRoom.cpp). -/
def ranks : List Str :=
  ["2", "3", "4", "5", "6", "7", "8", "9", "10", "J", "Q", "K", "A"].map String.data

/-- Suit characters drawn by `GameRoom::generateCard` (GameRoom.cpp). -/
def suits : List Char := ['H', 'D', 'C', 'S']

/-- The 52 card codes `GameRoom::generateCard` can produce: a rank string
followed by a suit character. -/
def allCards : List Str :=
  ranks.flatMap (fun r => suits.map (fun s => r ++ [s]))

/-- A valid card code, i.e. one of the 52 codes of `allCards`. -/
def validCard (c : Str) : Bool := allCards.contains c

/-- Rank of a card as read by `GameRoom::calculateHandValue`
(GameRoom.cpp): `card.substr(0, card.size() - 1)`, the card code without
its last character. -/
def cardRank (card : Str) : Str := card.dropLast

/-- Contribution of one card to the first loop of
`GameRoom::calculateHandValue` (GameRoom.cpp): added value and number of
aces; `none` when `std::stoi` throws on a non-numeric rank. -/
def cardDelta (card : Str) : Option (Int × Nat) :=
  let rank := cardRank card
  if rank = "A".data then some (11, 1)
  else if rank = "K".data ∨ rank = "Q".data ∨ rank = "J".data then some (10, 0)
  else (stoi? rank).map (fun v => (v, 0))

/-- Accumulating loop of `GameRoom::calculateHandValue` (GameRoom.cpp):
sum the card values with every ace counted as 11 and count the aces;
`none` when `std::stoi` throws on some rank. -/
def scanCards (acc : Int × Nat) : List Str → Option (Int × Nat)
  | [] => some acc
  | card :: rest =>
    match cardDelta card with
    | some d => scanCards (acc.1 + d.1, acc.2 + d.2) rest
    | none => none

/-- Ace-adjustment loop of `GameRoom::calculateHandValue` (GameRoom.cpp):
while the sum exceeds 21 and an ace remains counted as 11, demote it
to 1. -/
def adjustAces (sum : Int) : Nat → Int
  | 0 => sum
  | aces + 1 => if 21 < sum then adjustAces (sum - 10) aces else sum

/-- Model of `GameRoom::calculateHandValue` (GameRoom.cpp): split the
`;`-joined hand string, sum with aces at 11, then demote aces while the
total exceeds 21.  `none` models the `std::stoi` exception on a
non-numeric rank. -/
def calculateHandValue (cards : Str) : Option Int :=
  match scanCards (0, 0) (splitString cards ';') with
  | some sa => some (adjustAces sa.1 sa.2)
  | none => none

/-- Model of `Player::getPlayerCards` (Player.h): the literal `NO` for an
empty hand, otherwise the card codes joined by `;`. -/
def getPlayerCards (cards : List Str) : Str :=
  match cards with
  | [] => "NO".data
  | c :: rest => rest.foldl (fun acc card => acc ++ [';'] ++ card) c

/-- Model of `GameRoom::getDealerCards` (GameRoom.cpp): `NO` when empty,
otherwise the `;`-joined dealer cards. -/
def getDealerCards (cards : List Str) : Str :=
  match cards with
  | [] => "NO".data
  | c :: rest => rest.foldl (fun acc card => acc ++ [';'] ++ card) c

/-- Blackjack payout of `GameRoom::getCredits` (GameRoom.cpp):
`static_cast<int>(betAmount * 1.5)`.  For `b` in `int` range the double
product `b * 1.5 = 3b/2` is exact, and the cast truncates toward zero. -/
def blackjackPayout (b : Int) : Int := (3 * b).tdiv 2

/-- Model of the settlement arithmetic of `GameRoom::getCredits`
(GameRoom.cpp) on the values it reads from the player: the player's hand
string, the dealer's hand string, the bet and the credits.  Returns the
updated credits, the winnings delta, and the `ROUNDEND` payload string;
`none` models a `std::stoi` exception while valuing a hand. -/
def getCredits (playerCards dealerCards : Str) (betAmount credits : Int) :
    Option (Int × Int × Str) :=
  match calculateHandValue playerCards, calculateHandValue dealerCards with
  | some handValue, some dealerValue =>
    if 21 < handValue ∨ (dealerValue ≤ 21 ∧ handValue < dealerValue) then
      -- player loses the bet; credits are untouched
      some (credits, -betAmount, intToStr credits ++ [';'] ++ intToStr (-betAmount))
    else if handValue = dealerValue then
      -- push: return the bet
      let winnings := betAmount
      let credits1 := credits + winnings
      some (credits1, winnings, intToStr credits1 ++ [';'] ++ intToStr winnings)
    else if handValue = 21 ∧ (splitString playerCards ';').length = 2 then
      -- blackjack: 1.5 times the bet
      let winnings := blackjackPayout betAmount
      let credits1 := credits + winnings
      some (credits1, winnings, intToStr credits1 ++ [';'] ++ intToStr winnings)
    else
      -- player wins double the bet
      let winnings := 2 * betAmount
      let credits1 := credits + winnings
      some (credits1, winnings, intToStr credits1 ++ [';'] ++ intToStr winnings)
  | _, _ => none

/-- Model of the loop of `GameRoom::dealerPlay` (GameRoom.cpp): draw while
the dealer's hand value is below 17.  The infinite random stream is
abstracted as the list `draws` of upcoming cards; `none` models either a
hand-valuation exception or exhaustion of the modelled stream. -/
def dealerPlay (draws : List Str) (cards : List Str) : Option (List Str × List Str) :=
  match calculateHandValue (getDealerCards cards) with
  | none => none
  | some v =>
    if v < 17 then
      match draws with
      | [] => none
      | d :: rest => dealerPlay rest (cards ++ [d])
    else some (draws, cards)

/-! ## Players, rooms and the lobby

`Player` objects live behind `std::shared_ptr` and are shared between the
lobby maps, the room player lists and the turn queue.  The heap of player
objects is embedded as a total function from player ids to player records;
the containers hold player ids.  `std::map` becomes an association list.
The monotonic clock is abstracted: a player's `isOffline()` comparison
against `lastActivity` becomes the stored flag `offline`, and the room's
turn timer comparison becomes the parameter `turnElapsed` of `update`. -/

/-- Model of `PlayerState` (Player.h). -/
inductive PlayerState where
  | LOBBY
  | IN_GAMEROOM
  | DISCONNECTED
  deriving Repr, DecidableEq

/-- Model of `GameState` (GameRoom.h). -/
inductive GameState where
  | WAITING_FOR_PLAYERS
  | BETTING
  | PLAYING
  | ROUND_END
  deriving Repr, DecidableEq

/-- Model of the `Player` object (Player.h).  `offline` abstracts the
`isOffline()` clock comparison. -/
structure LPlayer where
  fd : Nat
  nickname : Str
  pstate : PlayerState
  credits : Int
  roomId : Int
  invalidMsgCount : Nat
  offline : Bool
  hasTurn : Bool
  isReady : Bool
  placedBet : Bool
  betAmount : Int
  playerCards : List Str
  isWaiting : Bool

/-- The heap of `Player` objects, indexed by player id. -/
abbrev Heap := Nat → LPlayer

/-- Overwrite one player object on the heap. -/
def hset (h : Heap) (pid : Nat) (p : LPlayer) : Heap :=
  fun i => if i = pid then p else h i

/-- Model of the per-room state of `GameRoom` (GameRoom.h). -/
structure RoomM where
  roomId : Int
  gameState : GameState
  players : List Nat
  dealerCards : List Str
  turnOrder : List Nat

/-- An outbound frame recorded by the model: `TcpServer::sendMessage` to
one socket.  A `none` payload marks an argument string whose construction
evaluated `turnOrder.front()` on an empty deque (undefined behavior in the
source). -/
inductive Out where
  | uni (fd : Nat) (command : Str) (args : Option Str)
  deriving Repr, DecidableEq

/-- Lookup in an association list modelling `std::map::find`. -/
def alookup {κ α : Type} [DecidableEq κ] (l : List (κ × α)) (k : κ) : Option α :=
  match l with
  | [] => none
  | (k1, a) :: rest => if k1 = k then some a else alookup rest k

/-- Insert-or-replace in an association list modelling `std::map::operator[]`. -/
def aset {κ α : Type} [DecidableEq κ] (l : List (κ × α)) (k : κ) (a : α) : List (κ × α) :=
  match l with
  | [] => [(k, a)]
  | (k1, a1) :: rest => if k1 = k then (k, a) :: rest else (k1, a1) :: aset rest k a

/-- Erase in an association list modelling `std::map::erase`.  A
`std::map` holds each key at most once, so erasing the key drops every
entry carrying it. -/
def aerase {κ α : Type} [DecidableEq κ] (l : List (κ × α)) (k : κ) : List (κ × α) :=
  l.filter (fun kv => kv.1 ≠ k)

/-- Model of the `Lobby` state (Lobby.h): the player heap, the map from
socket to player (`players` in the source, here `online`), the map from
nickname to disconnected player, the room directory and the dirty flag. -/
structure LobbyM where
  heap : Heap
  online : List (Nat × Nat)
  disconnectedPlayers : List (Str × Nat)
  rooms : List (Int × RoomM)
  playerStateChanged : Bool

/-- `MAX_PLAYERS` (GameRoom.h). -/
def MAX_PLAYERS : Nat := 7

/-- Model of `Player::resetGameAttributes` (Player.h). -/
def resetGameAttributes (p : LPlayer) : LPlayer :=
  { p with hasTurn := false, isReady := false, placedBet := false,
           isWaiting := true, betAmount := 0, playerCards := [] }

/-- Model of `GameRoom::areAllPlayersReady` (GameRoom.cpp). -/
def areAllPlayersReady (h : Heap) (r : RoomM) : Bool :=
  r.players.all (fun pid => (h pid).isReady)

/-- Model of `GameRoom::allPlayersPlacedBets` (GameRoom.cpp). -/
def allPlayersPlacedBets (h : Heap) (r : RoomM) : Bool :=
  r.players.all (fun pid => (h pid).placedBet)

/-- Modelled from the spec: `GameRoom::areAllPlayersOffline` is called by
`Lobby::update` (Lobby.cpp line 77) but its definition is not part of the
sources; per the spec a room in ROUND_END "only advances its own tick when
every player in it is offline", so it holds exactly when every player of
the room is offline. -/
def areAllPlayersOffline (h : Heap) (r : RoomM) : Bool :=
  r.players.all (fun pid => (h pid).offline)

/-- Model of `GameRoom::broadcastMessage` (GameRoom.cpp): send to every
player of the room that is not offline. -/
def broadcastMessage (h : Heap) (r : RoomM) (command : Str) (args : Option Str) :
    List Out :=
  r.players.filterMap (fun pid =>
    if (h pid).offline then none else some (.uni (h pid).fd command args))

/-- Model of `GameRoom::getRoomState` (GameRoom.cpp): per player
`P;<nick>;<status>;BET;<bet>:` with status 2 when offline, 1 when ready,
0 otherwise. -/
def getRoomState (h : Heap) (r : RoomM) : Str :=
  r.players.foldl (fun state pid =>
    let p := h pid
    state ++ "P;".data ++ p.nickname ++ [';'] ++
      (if p.offline then "2".data else if p.isReady then "1".data else "0".data) ++
      ";BET;".data ++ intToStr p.betAmount ++ [':']) []

/-- Player lines of `GameRoom::getGameState` (GameRoom.cpp).  The source
compares each player against `turnOrder.front()`; when the turn queue is
empty that read is undefined behavior on `std::deque`, embedded here as
the `none` result. -/
def getGameStateGo (h : Heap) (turnOrder : List Nat) : List Nat → Option Str
  | [] => some []
  | pid :: rest =>
    match turnOrder.head? with
    | none => none
    | some front =>
      let p := h pid
      let hasTurn := front = pid
      (getGameStateGo h turnOrder rest).map (fun s =>
        "P;".data ++ p.nickname ++ [';'] ++
          (if p.offline then "2".data else if hasTurn then "1".data else "0".data) ++
          [';'] ++ getPlayerCards p.playerCards ++ [':'] ++ s)

/-- Model of `GameRoom::getGameState` (GameRoom.cpp): the dealer line
followed by one line per player.  `none` when rendering any player line
reads `turnOrder.front()` on an empty queue.  The source also stores the
turn flag via `setTurn`; the stored flag is not observed by any modelled
output, so the embedding computes the status directly. -/
def getGameState (h : Heap) (r : RoomM) : Option Str :=
  (getGameStateGo h r.turnOrder r.players).map
    (fun s => "D;".data ++ getDealerCards r.dealerCards ++ [':'] ++ s)

/-- Model of `GameRoom::placeBet` (GameRoom.cpp): on a valid amount debit
the credits, record the bet and set the flag; `none` reports the `false`
return with no state change. -/
def placeBet (h : Heap) (pid : Nat) (amount : Int) : Option Heap :=
  let p := h pid
  if 0 < amount ∧ amount ≤ p.credits then
    some (hset h pid { p with credits := p.credits - amount,
                              betAmount := amount, placedBet := true })
  else none

/-- Model of `GameRoom::playerStand` (GameRoom.cpp): pop the head of the
turn queue when the given player holds it.  The turn-timer restart is
dropped by the clock abstraction. -/
def playerStand (r : RoomM) (pid : Nat) : RoomM :=
  match r.turnOrder with
  | [] => r
  | front :: rest => if front = pid then { r with turnOrder := rest } else r

/-- Model of `GameRoom::playerHit` (GameRoom.cpp): legal only for the head
of a non-empty turn queue with hand value below 21; on success one card is
drawn from the modelled stream.  Returns the success flag, the remaining
stream and the heap; `none` models a hand-valuation exception or
exhaustion of the modelled stream. -/
def playerHit (draws : List Str) (h : Heap) (r : RoomM) (pid : Nat) :
    Option (Bool × List Str × Heap) :=
  match r.turnOrder with
  | [] => some (false, draws, h)
  | front :: _ =>
    if front ≠ pid then some (false, draws, h)
    else
      match calculateHandValue (getPlayerCards (h pid).playerCards) with
      | none => none
      | some sum =>
        if 21 ≤ sum then some (false, draws, h)
        else
          match draws with
          | [] => none
          | d :: rest =>
            some (true, rest,
              hset h pid { h pid with playerCards := (h pid).playerCards ++ [d] })

/-- Per-player loop of `GameRoom::dealCards` (GameRoom.cpp): clear each
player's hand, deal two cards and enqueue the player. -/
def dealCardsGo (draws : List Str) (h : Heap) (r : RoomM) :
    List Nat → Option (List Str × Heap × RoomM)
  | [] => some (draws, h, r)
  | pid :: rest =>
    match draws with
    | c1 :: c2 :: drest =>
      dealCardsGo drest
        (hset h pid { h pid with playerCards := [c1, c2] })
        { r with turnOrder := r.turnOrder ++ [pid] } rest
    | _ => none

/-- Model of `GameRoom::dealCards` (GameRoom.cpp): two cards to the dealer
then, in seat order, two cards to each player, enqueueing every player
into the turn queue.  `none` models exhaustion of the modelled stream. -/
def dealCards (draws : List Str) (h : Heap) (r : RoomM) :
    Option (List Str × Heap × RoomM) :=
  match draws with
  | d1 :: d2 :: rest =>
    dealCardsGo rest h { r with dealerCards := [d1, d2] } r.players
  | _ => none

/-- Model of `GameRoom::removePlayer` (GameRoom.cpp): when the player is
seated, compare it against `turnOrder.front()` (on an empty queue that
read is undefined behavior; the junk head compares unequal, taking the
`else` branch, whose erase on the empty queue is a no-op — the undefined
read itself is analysed separately), pop or erase from the turn queue,
reset the player to the lobby and erase it from the seat list. -/
def GameRoom.removePlayer (h : Heap) (r : RoomM) (pid : Nat) :
    Heap × RoomM × List Out :=
  if pid ∈ r.players then
    let headIsPlayer : Bool :=
      match r.turnOrder.head? with
      | some front => front == pid
      | none => false
    let rq : RoomM × List Out :=
      if headIsPlayer then
        let r1 := playerStand r pid
        (r1, broadcastMessage h r1 "GAMESTAT".data (getGameState h r1))
      else
        ({ r with turnOrder := r.turnOrder.filter (fun q => q ≠ pid) }, [])
    let h1 := hset h pid
      (resetGameAttributes { h pid with roomId := -1, pstate := .LOBBY })
    (h1, { rq.1 with players := rq.1.players.erase pid }, rq.2)
  else (h, r, [])

/-- Model of `GameRoom::addPlayer` (GameRoom.cpp): seat the player unless
the room is full. -/
def GameRoom.addPlayer (r : RoomM) (pid : Nat) : RoomM :=
  if r.players.length < MAX_PLAYERS then { r with players := r.players ++ [pid] }
  else r

/-- Settlement loop of `GameRoom::update` on the PLAYING→ROUND_END
transition (GameRoom.cpp): send every seated player `ROUNDEND` with the
payload of `getCredits`, applying its credit updates in seat order.
`none` models a hand-valuation exception. -/
def settleGo (h : Heap) (dealerCs : Str) : List Nat → Option (Heap × List Out)
  | [] => some (h, [])
  | pid :: rest =>
    let p := h pid
    match getCredits (getPlayerCards p.playerCards) dealerCs p.betAmount p.credits with
    | none => none
    | some (c1, _, payload) =>
      let h1 := hset h pid { p with credits := c1 }
      (settleGo h1 dealerCs rest).map (fun hr =>
        (hr.1, Out.uni p.fd "ROUNDEND".data (some payload) :: hr.2))

/-- Model of `Lobby::destroyPlayer` (Lobby.cpp): remove a player from its
room (broadcasting `ROMSTAUP`) when seated, then erase it from the online
map without moving it to the disconnected map. -/
def Lobby.destroyPlayer (st : LobbyM) (fd : Nat) : LobbyM × List Out :=
  match alookup st.online fd with
  | none => (st, [])
  | some pid =>
    let p := st.heap pid
    let stage :=
      if p.pstate = .IN_GAMEROOM then
        match alookup st.rooms p.roomId with
        | some r =>
          let hro := GameRoom.removePlayer st.heap r pid
          let st1 := { st with heap := hro.1, rooms := aset st.rooms p.roomId hro.2.1 }
          (st1, hro.2.2 ++
            broadcastMessage hro.1 hro.2.1 "ROMSTAUP".data (some (getRoomState hro.1 hro.2.1)))
        | none => (st, ([] : List Out))
      else (st, [])
    ({ stage.1 with online := aerase stage.1.online fd, playerStateChanged := true },
      stage.2)

/-- Model of `GameRoom::handleInvalidMessage` (GameRoom.cpp): bump the
player's invalid-message counter; past 5, send `DISCONNECT`, remove the
player from this room and destroy it at lobby level. -/
def GameRoom.handleInvalidMessage (st : LobbyM) (rid : Int) (pid : Nat) :
    LobbyM × List Out :=
  let p := st.heap pid
  let st1 := { st with heap := hset st.heap pid { p with invalidMsgCount := p.invalidMsgCount + 1 } }
  if 5 < p.invalidMsgCount + 1 then
    let discOut : List Out :=
      [.uni p.fd "DISCONNECT".data (some "Too many invalid messages".data)]
    match alookup st1.rooms rid with
    | some r =>
      let hro := GameRoom.removePlayer st1.heap r pid
      let st2 := { st1 with heap := hro.1, rooms := aset st1.rooms rid hro.2.1 }
      let d := Lobby.destroyPlayer st2 (hro.1 pid).fd
      (d.1, discOut ++ hro.2.2 ++ d.2)
    | none =>
      let d := Lobby.destroyPlayer st1 p.fd
      (d.1, discOut ++ d.2)
  else (st1, [])

/-- WAITING_FOR_PLAYERS arm of `GameRoom::update` (GameRoom.cpp): with at
least one player and all ready, enter BETTING, mark the lobby dirty and
broadcast `REQ_BET_`. -/
def updateWaitingArm (st : LobbyM) (rid : Int) : LobbyM × List Out :=
  match alookup st.rooms rid with
  | none => (st, [])
  | some r =>
    if 1 ≤ r.players.length ∧ areAllPlayersReady st.heap r then
      let r1 := { r with gameState := .BETTING }
      ({ st with rooms := aset st.rooms rid r1, playerStateChanged := true },
        broadcastMessage st.heap r1 "REQ_BET_".data (some []))
    else (st, [])

/-- Model of `GameRoom::ResetDefaultState` (GameRoom.cpp): back to
WAITING_FOR_PLAYERS with dealer hand and turn queue cleared; when the room
has players, reset each player's round attributes and run `update()` once
(at that point the state is WAITING_FOR_PLAYERS, so the call is its
WAITING arm). -/
def resetDefaultState (st : LobbyM) (rid : Int) : LobbyM × List Out :=
  match alookup st.rooms rid with
  | none => (st, [])
  | some r =>
    let r1 := { r with gameState := .WAITING_FOR_PLAYERS, dealerCards := [],
                       turnOrder := [] }
    let st1 := { st with rooms := aset st.rooms rid r1 }
    if r1.players = [] then (st1, [])
    else
      let h1 := r1.players.foldl (fun h pid => hset h pid (resetGameAttributes (h pid))) st1.heap
      updateWaitingArm { st1 with heap := h1 } rid

/-- ROUND_END arm of `GameRoom::update` (GameRoom.cpp): reset the room to
its default state (which re-runs the WAITING arm), force the state to
WAITING_FOR_PLAYERS and mark the lobby dirty. -/
def updateRoundEndArm (st : LobbyM) (rid : Int) : LobbyM × List Out :=
  let s1 := resetDefaultState st rid
  match alookup s1.1.rooms rid with
  | some r1 =>
    ({ s1.1 with rooms := aset s1.1.rooms rid { r1 with gameState := .WAITING_FOR_PLAYERS },
                 playerStateChanged := true }, s1.2)
  | none => ({ s1.1 with playerStateChanged := true }, s1.2)

/-- BETTING arm of `GameRoom::update` (GameRoom.cpp): when every seated
player has placed a bet, enter PLAYING, deal, and broadcast `GAMESTAT`. -/
def updateBettingArm (draws : List Str) (st : LobbyM) (rid : Int) :
    Option (List Str × LobbyM × List Out) :=
  match alookup st.rooms rid with
  | none => some (draws, st, [])
  | some r =>
    if allPlayersPlacedBets st.heap r then
      let r1 := { r with gameState := .PLAYING }
      match dealCards draws st.heap r1 with
      | none => none
      | some (drest, h1, r2) =>
        some (drest,
          { st with heap := h1, rooms := aset st.rooms rid r2, playerStateChanged := true },
          broadcastMessage h1 r2 "GAMESTAT".data (getGameState h1 r2))
    else some (draws, st, [])

/-- PLAYING arm of `GameRoom::update` (GameRoom.cpp): on an empty turn
queue enter ROUND_END, let the dealer play, broadcast `GAMESTAT` and send
every player its `ROUNDEND` settlement; otherwise auto-stand the current
player when the turn has lasted at least 30 seconds. -/
def updatePlayingArm (draws : List Str) (turnElapsed : Int) (st : LobbyM) (rid : Int) :
    Option (List Str × LobbyM × List Out) :=
  match alookup st.rooms rid with
  | none => some (draws, st, [])
  | some r =>
    match r.turnOrder with
    | [] =>
      let r1 := { r with gameState := .ROUND_END }
      match dealerPlay draws r1.dealerCards with
      | none => none
      | some (drest, dcards) =>
        let r2 := { r1 with dealerCards := dcards }
        let gOut := broadcastMessage st.heap r2 "GAMESTAT".data (getGameState st.heap r2)
        match settleGo st.heap (getDealerCards r2.dealerCards) r2.players with
        | none => none
        | some (h1, outs) =>
          some (drest, { st with heap := h1, rooms := aset st.rooms rid r2 }, gOut ++ outs)
    | front :: _ =>
      if 30 ≤ turnElapsed then
        let r1 := playerStand r front
        some (draws, { st with rooms := aset st.rooms rid r1 },
          broadcastMessage st.heap r1 "GAMESTAT".data (getGameState st.heap r1))
      else some (draws, st, [])

/-- Model of `GameRoom::update` (GameRoom.cpp): dispatch on the current
room state.  `draws` is the modelled stream of randomly generated cards
and `turnElapsed` the abstracted turn-timer reading; `none` models an
exception or the exhaustion of the modelled stream. -/
def GameRoom.update (draws : List Str) (turnElapsed : Int) (st : LobbyM) (rid : Int) :
    Option (List Str × LobbyM × List Out) :=
  match alookup st.rooms rid with
  | none => some (draws, st, [])
  | some r =>
    match r.gameState with
    | .WAITING_FOR_PLAYERS =>
      let s := updateWaitingArm st rid
      some (draws, s.1, s.2)
    | .BETTING => updateBettingArm draws st rid
    | .PLAYING => updatePlayingArm draws turnElapsed st rid
    | .ROUND_END =>
      let s := updateRoundEndArm st rid
      some (draws, s.1, s.2)

/-- Model of `GameRoom::handleStateWaitingForPlayers` (GameRoom.cpp):
`RDY_____` and `NRD_____` toggle readiness; `PAG_____` requires positive
credits and runs `update()` (the WAITING arm, since the state is
WAITING_FOR_PLAYERS here) before acknowledging; anything else is an
invalid message. -/
def handleStateWaitingForPlayers (st : LobbyM) (rid : Int) (pid : Nat) (msg : Message) :
    LobbyM × List Out :=
  let p := st.heap pid
  if msg.command = "RDY_____".data then
    ({ st with heap := hset st.heap pid { p with isReady := true } },
      [.uni p.fd "ACK__RDY".data (some " ".data)])
  else if msg.command = "NRD_____".data then
    ({ st with heap := hset st.heap pid { p with isReady := false } },
      [.uni p.fd "ACK__NRD".data (some " ".data)])
  else if msg.command = "PAG_____".data then
    if p.credits ≤ 0 then
      (st, [.uni p.fd "NACK_PAG".data (some "Insufficient credits to continue".data)])
    else
      let s := updateWaitingArm st rid
      (s.1, s.2 ++ [.uni p.fd "ACK__PAG".data (some (intToStr rid))])
  else
    let s := GameRoom.handleInvalidMessage st rid pid
    (s.1, s.2 ++
      [.uni p.fd "NACK_CMD".data (some "Invalid command during WAITING_FOR_PLAYERS".data)])

/-- Model of `GameRoom::handleStateBetting` (GameRoom.cpp): `BT______`
with at least one argument converts it with a guarded `std::stoi` (a throw
is answered with `NACK__BT`), then places the bet; `BT______` without
arguments falls through with no reply; other commands are invalid. -/
def handleStateBetting (st : LobbyM) (rid : Int) (pid : Nat) (msg : Message) :
    LobbyM × List Out :=
  let p := st.heap pid
  if msg.command = "BT______".data then
    match msg.args with
    | a0 :: _ =>
      match stoi? a0 with
      | none => (st, [.uni p.fd "NACK__BT".data (some "Invalid bet amount".data)])
      | some betAmount =>
        match placeBet st.heap pid betAmount with
        | some h1 =>
          ({ st with heap := h1 },
            [.uni p.fd "ACK___BT".data (some (' ' :: intToStr betAmount))])
        | none => (st, [.uni p.fd "NACK__BT".data (some "Invalid bet amount".data)])
    | [] => (st, [])
  else
    let s := GameRoom.handleInvalidMessage st rid pid
    (s.1, s.2 ++ [.uni p.fd "NACK_CMD".data (some "Invalid command during BETTING".data)])

/-- Model of `GameRoom::handleStatePlaying` (GameRoom.cpp): `HIT_____`
tries to draw (replying `NACK_HIT` on failure) and then auto-stands on a
bust or on exactly 21; `STAND___` pops the player from the turn queue;
other commands are invalid.  `none` models a hand-valuation exception or
the exhaustion of the modelled stream. -/
def handleStatePlaying (draws : List Str) (st : LobbyM) (rid : Int) (pid : Nat)
    (msg : Message) : Option (List Str × LobbyM × List Out) :=
  match alookup st.rooms rid with
  | none => some (draws, st, [])
  | some r =>
    let p := st.heap pid
    if msg.command = "HIT_____".data then
      match playerHit draws st.heap r pid with
      | none => none
      | some (ok, drest, h1) =>
        let st1 := { st with heap := h1 }
        let hitOuts : List Out :=
          if ok then [] else [.uni p.fd "NACK_HIT".data (some "Cannot hit at this time".data)]
        match calculateHandValue (getPlayerCards (h1 pid).playerCards) with
        | none => none
        | some v =>
          if 21 < v then
            some (drest, { st1 with rooms := aset st1.rooms rid (playerStand r pid) },
              hitOuts ++ [.uni p.fd "BUST____".data (some " ".data)])
          else if v = 21 then
            some (drest, { st1 with rooms := aset st1.rooms rid (playerStand r pid) },
              hitOuts ++ [.uni p.fd "HIT21___".data (some " ".data)])
          else some (drest, st1, hitOuts)
    else if msg.command = "STAND___".data then
      some (draws, { st with rooms := aset st.rooms rid (playerStand r pid) },
        [.uni p.fd "ACK_STND".data (some " ".data)])
    else
      let s := GameRoom.handleInvalidMessage st rid pid
      some (draws, s.1, s.2 ++
        [.uni p.fd "NACK_CMD".data (some "Invalid command during PLAYING".data)])

/-- Model of `GameRoom::handleStateRoundEnd` (GameRoom.cpp): `PAG_____`
requires positive credits and runs `update()` (the ROUND_END arm, which
resets the room) before acknowledging; other commands are invalid. -/
def handleStateRoundEnd (st : LobbyM) (rid : Int) (pid : Nat) (msg : Message) :
    LobbyM × List Out :=
  let p := st.heap pid
  if msg.command = "PAG_____".data then
    if p.credits ≤ 0 then
      (st, [.uni p.fd "NACK_PAG".data (some "Insufficient credits to continue".data)])
    else
      let s := updateRoundEndArm st rid
      (s.1, s.2 ++ [.uni p.fd "ACK__PAG".data (some (intToStr rid))])
  else
    let s := GameRoom.handleInvalidMessage st rid pid
    (s.1, s.2 ++
      [.uni p.fd "NACK_CMD".data (some "Invalid command during ROUND_END".data)])

/-- Post-handler room broadcast of `GameRoom::handle` (GameRoom.cpp),
rendered against the room and heap as updated by the handler. -/
def handleDispatchBroadcast (st : LobbyM) (rid : Int) (useGameState : Bool) : List Out :=
  match alookup st.rooms rid with
  | none => []
  | some r =>
    if useGameState then broadcastMessage st.heap r "GAMESTAT".data (getGameState st.heap r)
    else broadcastMessage st.heap r "ROMSTAUP".data (some (getRoomState st.heap r))

/-- Model of `GameRoom::handle` (GameRoom.cpp): `REC__GAM` answers with a
snapshot broadcast and returns; every other message is dispatched to the
per-state handler, followed by a snapshot broadcast and one unconditional
`update()` call. -/
def GameRoom.handle (draws : List Str) (turnElapsed : Int) (st : LobbyM) (rid : Int)
    (pid : Nat) (msg : Message) : Option (List Str × LobbyM × List Out) :=
  match alookup st.rooms rid with
  | none => some (draws, st, [])
  | some r =>
    if msg.command = "REC__GAM".data then
      if r.gameState = .PLAYING then
        some (draws, st, broadcastMessage st.heap r "GAMESTAT".data (getGameState st.heap r))
      else
        some (draws, st, broadcastMessage st.heap r "ROMSTAUP".data (some (getRoomState st.heap r)))
    else
      let step : Option (List Str × LobbyM × List Out) :=
        match r.gameState with
        | .WAITING_FOR_PLAYERS =>
          let s := handleStateWaitingForPlayers st rid pid msg
          some (draws, s.1, s.2 ++ handleDispatchBroadcast s.1 rid false)
        | .BETTING =>
          let s := handleStateBetting st rid pid msg
          some (draws, s.1, s.2 ++ handleDispatchBroadcast s.1 rid false)
        | .PLAYING =>
          match handleStatePlaying draws st rid pid msg with
          | none => none
          | some (d1, st1, outs) =>
            some (d1, st1, outs ++ handleDispatchBroadcast st1 rid true)
        | .ROUND_END =>
          let s := handleStateRoundEnd st rid pid msg
          some (draws, s.1, s.2 ++ handleDispatchBroadcast s.1 rid false)
      match step with
      | none => none
      | some (d1, st1, outs) =>
        match GameRoom.update d1 turnElapsed st1 rid with
        | none => none
        | some (d2, st2, outs2) => some (d2, st2, outs ++ outs2)

/-- Model of `Lobby::removePlayer` (Lobby.cpp): on a socket drop, a seated
player is removed from its room (with a `ROMSTAUP` broadcast) unless the
room is PLAYING, in which case only a `GAMESTAT` broadcast is sent and the
seat is kept; a named player is then moved into the disconnected map, and
the socket entry is erased.  The `else` branch dereferences the room
iterator, so a seated player whose room id is unknown is undefined
behavior in the source; the embedding emits nothing for it. -/
def Lobby.removePlayer (st : LobbyM) (fd : Nat) : LobbyM × List Out :=
  match alookup st.online fd with
  | none => (st, [])
  | some pid =>
    let p := st.heap pid
    let stage :=
      if p.pstate = .IN_GAMEROOM then
        match alookup st.rooms p.roomId with
        | some r =>
          if r.gameState ≠ .PLAYING then
            let hro := GameRoom.removePlayer st.heap r pid
            ({ st with heap := hro.1, rooms := aset st.rooms p.roomId hro.2.1 },
              hro.2.2 ++
                broadcastMessage hro.1 hro.2.1 "ROMSTAUP".data
                  (some (getRoomState hro.1 hro.2.1)))
          else
            (st, broadcastMessage st.heap r "GAMESTAT".data (getGameState st.heap r))
        | none => (st, ([] : List Out))
      else (st, [])
    let st1 := stage.1
    let st2 :=
      if p.nickname ≠ [] then
        { st1 with disconnectedPlayers := aset st1.disconnectedPlayers p.nickname pid }
      else st1
    ({ st2 with online := aerase st2.online fd, playerStateChanged := true }, stage.2)

/-- Model of `Lobby::handleInvalidMessage` (Lobby.cpp): bump the counter;
past 5, send `DISCONNECT` and destroy the player. -/
def Lobby.handleInvalidMessage (st : LobbyM) (pid : Nat) : LobbyM × List Out :=
  let p := st.heap pid
  let st1 := { st with heap := hset st.heap pid { p with invalidMsgCount := p.invalidMsgCount + 1 } }
  if 5 < p.invalidMsgCount + 1 then
    let d := Lobby.destroyPlayer st1 p.fd
    (d.1, .uni p.fd "DISCONNECT".data (some "Too many invalid messages".data) :: d.2)
  else (st1, [])

/-- Model of `Lobby::assignPlayerToRoom` (Lobby.cpp): succeeds when the
room exists, has a free seat, is WAITING_FOR_PLAYERS and the player has
positive credits. -/
def assignPlayerToRoom (st : LobbyM) (pid : Nat) (roomId : Int) : Option LobbyM :=
  match alookup st.rooms roomId with
  | some r =>
    if r.players.length < MAX_PLAYERS ∧ r.gameState = .WAITING_FOR_PLAYERS ∧
        0 < (st.heap pid).credits then
      some { st with
        rooms := aset st.rooms roomId (GameRoom.addPlayer r pid),
        heap := hset st.heap pid { st.heap pid with roomId := roomId, pstate := .IN_GAMEROOM },
        playerStateChanged := true }
    else none
  | none => none

/-- Model of the `JOIN____` branch of `Lobby::handle` (Lobby.cpp): with
exactly one argument the room id is converted by an *unguarded*
`std::stoi`, so a conversion failure is an exception escaping the handler,
embedded as `none`; with any other argument count the message is invalid
and answered `NACK_JON`. -/
def Lobby.handleJoin (st : LobbyM) (pid : Nat) (args : List Str) :
    Option (LobbyM × List Out) :=
  let p := st.heap pid
  match args with
  | [a0] =>
    match stoi? a0 with
    | none => none
    | some roomId =>
      match assignPlayerToRoom st pid roomId with
      | some st1 =>
        let rOuts :=
          match alookup st1.rooms roomId with
          | some r => broadcastMessage st1.heap r "ROMSTAUP".data (some (getRoomState st1.heap r))
          | none => []
        some (st1, .uni p.fd "ACK__JON".data (some " ".data) :: rOuts)
      | none => some (st, [.uni p.fd "NACK_JON".data (some "Cannot join room".data)])
  | _ =>
    let s := Lobby.handleInvalidMessage st pid
    some (s.1, s.2 ++ [.uni p.fd "NACK_JON".data (some "Missing room ID".data)])

/-- Per-room gating of `Lobby::update` (Lobby.cpp lines 75-79): a room is
ticked unless it is in ROUND_END with some player still online. -/
def lobbyRoomTick (draws : List Str) (turnElapsed : Int) (st : LobbyM) (rid : Int) :
    Option (List Str × LobbyM × List Out) :=
  match alookup st.rooms rid with
  | none => some (draws, st, [])
  | some r =>
    if r.gameState ≠ .ROUND_END ∨
        (areAllPlayersOffline st.heap r ∧ r.gameState = .ROUND_END) then
      GameRoom.update draws turnElapsed st rid
    else some (draws, st, [])

/-! ## Lemmas about the splitter -/

theorem splitStringGo_no_delim (d : Char) (t : Str) (hd : d ∉ t) (acc : Str) :
    splitStringGo d acc t =
      if acc.reverse ++ t = [] then [] else [acc.reverse ++ t] := by
  induction t generalizing acc with
  | nil => simp [splitStringGo]
  | cons c cs ih =>
    have hcd : c ≠ d := fun h => hd (h ▸ List.mem_cons_self c cs)
    have hcs : d ∉ cs := fun h => hd (List.mem_cons_of_mem c h)
    rw [splitStringGo, if_neg hcd, ih hcs]
    simp

theorem splitStringGo_delim (d : Char) (t rest : Str) (hd : d ∉ t) (acc : Str) :
    splitStringGo d acc (t ++ d :: rest) =
      (acc.reverse ++ t) :: splitStringGo d [] rest := by
  induction t generalizing acc with
  | nil => simp [splitStringGo]
  | cons c cs ih =>
    have hcd : c ≠ d := fun h => hd (h ▸ List.mem_cons_self c cs)
    have hcs : d ∉ cs := fun h => hd (List.mem_cons_of_mem c h)
    rw [List.cons_append, splitStringGo, if_neg hcd, ih hcs]
    simp

/-- Splitting a frame `BJ:<cmd>` with a colon-free non-empty command
recovers the two tokens. -/
theorem splitString_frame_noargs (cmd : Str) (hc : ':' ∉ cmd) (hcmd : cmd ≠ []) :
    splitString ("BJ:".data ++ cmd) ':' = ["BJ".data, cmd] := by
  have h2 : ("BJ:".data ++ cmd : Str) = "BJ".data ++ ':' :: cmd := rfl
  rw [splitString, h2, splitStringGo_delim ':' "BJ".data cmd (by decide) [],
    splitStringGo_no_delim ':' cmd hc []]
  simp [hcmd]

/-- Splitting a frame `BJ:<cmd>:<args>` whose command and non-empty
argument blob are colon-free recovers the three tokens. -/
theorem splitString_frame_args (cmd args : Str) (hc : ':' ∉ cmd) (ha : ':' ∉ args)
    (hargs : args ≠ []) :
    splitString ("BJ:".data ++ cmd ++ ':' :: args) ':' = ["BJ".data, cmd, args] := by
  have h2 : ("BJ:".data ++ cmd ++ ':' :: args : Str) =
      "BJ".data ++ ':' :: (cmd ++ ':' :: args) := by simp
  rw [splitString, h2, splitStringGo_delim ':' "BJ".data (cmd ++ ':' :: args) (by decide) [],
    splitStringGo_delim ':' cmd args hc [],
    splitStringGo_no_delim ':' args ha []]
  simp [hargs]

/-- C6.  Parser validity: a line parses as valid exactly when it splits on
a colon into at least two tokens, the first equal to `BJ` and the second
of length 8; a valid parse returns the uppercased command token and the
remaining tokens as arguments.  In particular the empty line (which splits
into no tokens) and any frame whose command token has 7 or 9 characters
are invalid. -/
theorem parser_validity (line : Str) :
    ((Parser.parse line).valid = true ↔
      2 ≤ (splitString line ':').length ∧
      (splitString line ':').getD 0 [] = "BJ".data ∧
      ((splitString line ':').getD 1 []).length = 8) ∧
    ((Parser.parse line).valid = true →
      (Parser.parse line).command = ((splitString line ':').getD 1 []).map Char.toUpper ∧
      (Parser.parse line).args = (splitString line ':').drop 2) := by
  by_cases hl : line = []
  · have hsplit : splitString line ':' = [] := by rw [hl]; rfl
    have hP : Parser.parse line = Message.mk0 := by rw [Parser.parse, if_pos hl]
    rw [hP, hsplit]
    simp [Message.mk0]
  · rcases hsplit : splitString line ':' with _ | ⟨t0, _ | ⟨t1, rest⟩⟩
    · have hP : Parser.parse line = Message.mk0 := by
        rw [Parser.parse, if_neg hl, hsplit]
      rw [hP]
      simp [Message.mk0]
    · have hP : Parser.parse line = Message.mk0 := by
        rw [Parser.parse, if_neg hl, hsplit]
      rw [hP]
      simp [Message.mk0]
    · have hP : Parser.parse line =
          (if t0 ≠ "BJ".data then Message.mk0
           else if t1.length ≠ 8 then Message.mk0
           else { command := t1.map Char.toUpper, args := rest, valid := true }) := by
        rw [Parser.parse, if_neg hl, hsplit]
      by_cases hbj : t0 = "BJ".data
      · by_cases hlen : t1.length = 8
        · rw [hP, if_neg (by simp [hbj]), if_neg (by simp [hlen])]
          refine ⟨⟨fun _ => ⟨by simp, by simp [hbj], by simp [hlen]⟩, fun _ => rfl⟩,
            fun _ => ⟨rfl, rfl⟩⟩
        · rw [hP, if_neg (by simp [hbj]), if_pos (by simp [hlen])]
          exact ⟨⟨fun h => absurd h (by simp [Message.mk0]),
            fun h => absurd h.2.2 (by simpa using hlen)⟩,
            fun h => absurd h (by simp [Message.mk0])⟩
      · rw [hP, if_pos (by simp [hbj])]
        exact ⟨⟨fun h => absurd h (by simp [Message.mk0]),
          fun h => absurd h.2.1 (by simpa using hbj)⟩,
          fun h => absurd h (by simp [Message.mk0])⟩

/-- C6 witness: the validity characterization evaluated on the concrete
frame `BJ:login___:alice`. -/
theorem parser_validity_witness :
    (Parser.parse "BJ:login___:alice".data).valid = true ∧
    (Parser.parse "BJ:login___:alice".data).command =
      ((splitString "BJ:login___:alice".data ':').getD 1 []).map Char.toUpper ∧
    (Parser.parse "BJ:login___:alice".data).args =
      (splitString "BJ:login___:alice".data ':').drop 2 :=
  ⟨by decide, (parser_validity "BJ:login___:alice".data).2 (by decide)⟩

/-- A newline-free frame gets exactly one newline appended by
`TcpServer::sendMessage`, so stripping the trailing newline recovers the
frame body. -/
theorem sendMessageWire_stripped (cmd args : Str) (hcn : '\n' ∉ cmd) (han : '\n' ∉ args) :
    (sendMessageWire cmd args).dropLast =
      "BJ:".data ++ cmd ++ (if args = [] then [] else ':' :: args) := by
  have hnm : '\n' ∉ ("BJ:".data ++ cmd ++ (if args = [] then [] else ':' :: args) : Str) := by
    intro hmem
    rcases List.mem_append.mp hmem with h1 | h2
    · rcases List.mem_append.mp h1 with h3 | h4
      · exact absurd h3 (by decide)
      · exact hcn h4
    · by_cases hargs : args = []
      · rw [if_pos hargs] at h2; simp at h2
      · rw [if_neg hargs] at h2
        rcases List.mem_cons.mp h2 with h5 | h6
        · exact absurd h5 (by decide)
        · exact han h6
  have hlast : ¬ (("BJ:".data ++ cmd ++ (if args = [] then [] else ':' :: args) : Str).getLast?
      = some '\n') :=
    fun hsome => hnm (List.mem_of_mem_getLast? (Option.mem_def.mpr hsome))
  simp only [sendMessageWire]
  rw [if_neg hlast, List.dropLast_concat]

/-- A line that splits into `BJ`, an 8-character command token and further
tokens parses as the uppercased command with those tokens as arguments. -/
theorem parse_of_split (line t0 t1 : Str) (rest : List Str) (hl : line ≠ [])
    (hs : splitString line ':' = t0 :: t1 :: rest) (hbj : t0 = "BJ".data)
    (hlen : t1.length = 8) :
    Parser.parse line = { command := t1.map Char.toUpper, args := rest, valid := true } := by
  have hP : Parser.parse line =
      (if t0 ≠ "BJ".data then Message.mk0
       else if t1.length ≠ 8 then Message.mk0
       else { command := t1.map Char.toUpper, args := rest, valid := true }) := by
    rw [Parser.parse, if_neg hl, hs]
  rw [hP, if_neg (by simp [hbj]), if_neg (by simp [hlen])]

/-- C7 counterexample: the round-trip claim fails as stated.  The command
`login___` has length 8 and contains neither a colon nor a newline, yet
parsing its serialized frame returns the uppercased command `LOGIN___`,
not the same command; and the 8-character command `AB:CDEFG` containing a
colon does not even parse as valid. -/
theorem parser_roundtrip_counterexample :
    ("login___".data.length = 8 ∧ ':' ∉ "login___".data ∧ '\n' ∉ "login___".data ∧
      ':' ∉ "x".data ∧ '\n' ∉ "x".data ∧
      (Parser.parse ((sendMessageWire "login___".data "x".data).dropLast)).valid = true ∧
      (Parser.parse ((sendMessageWire "login___".data "x".data).dropLast)).command ≠
        "login___".data) ∧
    ("AB:CDEFG".data.length = 8 ∧
      (Parser.parse ((sendMessageWire "AB:CDEFG".data "x".data).dropLast)).valid = false) := by
  decide

/-- C7 amended.  Round-trip for serializable commands: for a command of
length 8 that contains no colon and no newline and is invariant under
uppercasing, and an argument blob without colon or newline, parsing the
`sendMessage` frame with its trailing newline stripped yields a valid
message with the same command, and with the argument blob as the single
argument token (no token at all when the blob is empty, since the
serializer omits the separator then). -/
theorem parser_roundtrip_amended (cmd args : Str)
    (hlen : cmd.length = 8) (hcc : ':' ∉ cmd) (hcn : '\n' ∉ cmd)
    (hup : cmd.map Char.toUpper = cmd) (hac : ':' ∉ args) (han : '\n' ∉ args) :
    (Parser.parse ((sendMessageWire cmd args).dropLast)).valid = true ∧
    (Parser.parse ((sendMessageWire cmd args).dropLast)).command = cmd ∧
    (Parser.parse ((sendMessageWire cmd args).dropLast)).args =
      (if args = [] then [] else [args]) := by
  have hcmdne : cmd ≠ [] := by
    intro h; rw [h] at hlen; exact absurd hlen (by decide)
  rw [sendMessageWire_stripped cmd args hcn han]
  by_cases hargs : args = []
  · rw [if_pos hargs, if_pos hargs, List.append_nil]
    have hne : ("BJ:".data ++ cmd : Str) ≠ [] := by simp
    rw [parse_of_split ("BJ:".data ++ cmd) "BJ".data cmd []
      hne (splitString_frame_noargs cmd hcc hcmdne) rfl hlen]
    exact ⟨rfl, hup, rfl⟩
  · rw [if_neg hargs, if_neg hargs]
    have hne : ("BJ:".data ++ cmd ++ ':' :: args : Str) ≠ [] := by simp
    rw [parse_of_split ("BJ:".data ++ cmd ++ ':' :: args) "BJ".data cmd [args]
      hne (splitString_frame_args cmd args hcc hac hargs) rfl hlen]
    exact ⟨rfl, hup, rfl⟩

/-- C7 witness: the amended round-trip evaluated on the concrete command
`LOGIN___` and argument blob `alice;1000`. -/
theorem parser_roundtrip_amended_witness :
    "LOGIN___".data.length = 8 ∧
    (Parser.parse ((sendMessageWire "LOGIN___".data "alice;1000".data).dropLast)).valid = true ∧
    (Parser.parse ((sendMessageWire "LOGIN___".data "alice;1000".data).dropLast)).command =
      "LOGIN___".data ∧
    (Parser.parse ((sendMessageWire "LOGIN___".data "alice;1000".data).dropLast)).args =
      (if ("alice;1000".data : Str) = [] then [] else ["alice;1000".data]) :=
  have h := parser_roundtrip_amended "LOGIN___".data "alice;1000".data
    (by decide) (by decide) (by decide) (by decide) (by decide) (by decide)
  ⟨by decide, h.1, h.2.1, h.2.2⟩

/-- C4.  Bet placement: in BETTING, a `BT______ <amount>` message succeeds
exactly when the amount converts under `std::stoi` semantics to `n` with
`0 < n ≤ credits`; on success the credits are debited by `n`, the bet is
recorded, the flag set and the reply is `ACK___BT` with the amount;
otherwise the reply is `NACK__BT` and the whole state is unchanged. -/
theorem bet_placement (st : LobbyM) (rid : Int) (pid : Nat) (a : Str) :
    handleStateBetting st rid pid ⟨"BT______".data, [a], true⟩ =
      (match stoi? a with
      | some n =>
        if 0 < n ∧ n ≤ (st.heap pid).credits then
          ({ st with heap := hset st.heap pid { st.heap pid with
                credits := (st.heap pid).credits - n, betAmount := n, placedBet := true } },
            [.uni (st.heap pid).fd "ACK___BT".data (some (' ' :: intToStr n))])
        else (st, [.uni (st.heap pid).fd "NACK__BT".data (some "Invalid bet amount".data)])
      | none =>
        (st, [.uni (st.heap pid).fd "NACK__BT".data (some "Invalid bet amount".data)])) := by
  cases hs : stoi? a with
  | none => simp [handleStateBetting, hs]
  | some n =>
    by_cases hcond : 0 < n ∧ n ≤ (st.heap pid).credits
    · simp [handleStateBetting, hs, placeBet, hcond]
    · simp [handleStateBetting, hs, placeBet, hcond]

/-- Truncating and flooring division by two agree on non-negative
integers, so the `static_cast<int>` payout is the floor of `1.5·b`. -/
theorem blackjackPayout_eq_fdiv (b : Int) (hb : 0 ≤ b) :
    blackjackPayout b = (3 * b).fdiv 2 := by
  rw [blackjackPayout, Int.fdiv_eq_tdiv (by omega) (by omega)]

/-- C1.  Round settlement: with hand value `p`, dealer value `d`, bet `b`
and credits `c` at settlement time, `getCredits` returns exactly the
claimed five-way split — bust or dealer win leave credits unchanged with
delta `-b`; a push credits `+b`; a two-card 21 credits `⌊1.5·b⌋`; any
other player win credits `+2·b` — and the `ROUNDEND` payload is
`<newCredits>;<delta>`. -/
theorem roundend_settlement (pc dc : Str) (b c p d : Int)
    (hp : calculateHandValue pc = some p) (hd : calculateHandValue dc = some d)
    (hb : 0 ≤ b) :
    getCredits pc dc b c =
      some (if 21 < p then (c, -b, intToStr c ++ [';'] ++ intToStr (-b))
        else if d ≤ 21 ∧ p < d then (c, -b, intToStr c ++ [';'] ++ intToStr (-b))
        else if p = d then (c + b, b, intToStr (c + b) ++ [';'] ++ intToStr b)
        else if p = 21 ∧ (splitString pc ';').length = 2 then
          (c + (3 * b).fdiv 2, (3 * b).fdiv 2,
            intToStr (c + (3 * b).fdiv 2) ++ [';'] ++ intToStr ((3 * b).fdiv 2))
        else (c + 2 * b, 2 * b, intToStr (c + 2 * b) ++ [';'] ++ intToStr (2 * b))) := by
  have hbp := blackjackPayout_eq_fdiv b hb
  by_cases h1 : 21 < p
  · simp [getCredits, hp, hd, h1]
  · by_cases h2 : d ≤ 21 ∧ p < d
    · simp [getCredits, hp, hd, h1, h2]
    · by_cases h3 : p = d
      · have hd21 : ¬ 21 < d := fun hh => h1 (h3 ▸ hh)
        simp [getCredits, hp, hd, h1, h2, h3, hd21]
      · by_cases h4 : p = 21 ∧ (splitString pc ';').length = 2
        · obtain ⟨hp21, hlen2⟩ := h4
          subst hp21
          have h5 : ¬(d ≤ 21 ∧ 21 < d) := by omega
          have h6 : ¬((21:Int) = d) := h3
          simp [getCredits, hp, hd, h3, h5, h6, hlen2, hbp]
        · simp [getCredits, hp, hd, h1, h2, h3, h4, hbp]

/-- C1 witness: a two-card 21 (`AH;KS`) against a dealer 20 with bet 100
and 900 credits at settlement (1000 before the bet was debited) yields
credits 1050, delta 150 and payload `1050;150`. -/
theorem roundend_settlement_witness :
    calculateHandValue "AH;KS".data = some 21 ∧
    calculateHandValue "KH;QH".data = some 20 ∧
    getCredits "AH;KS".data "KH;QH".data 100 900 = some (1050, 150, "1050;150".data) := by
  refine ⟨by decide, by decide, ?_⟩
  rw [roundend_settlement "AH;KS".data "KH;QH".data 100 900 21 20 (by decide) (by decide)
    (by decide)]
  decide

/-! ## Hand value is a function of the multiset of cards -/

/-- Value a valid card contributes to the first loop of
`calculateHandValue` (ace counted as 11). -/
def cardBase (c : Str) : Int :=
  if cardRank c = "A".data then 11
  else if cardRank c = "K".data ∨ cardRank c = "Q".data ∨ cardRank c = "J".data then 10
  else (stoi? (cardRank c)).getD 0

/-- Number of aces a card contributes. -/
def cardAces (c : Str) : Nat :=
  if cardRank c = "A".data then 1 else 0

/-- On each of the 52 generatable card codes, the per-card loop step
succeeds with the card's base value and ace count, and the code is
non-empty and semicolon-free. -/
theorem allCards_facts : ∀ c ∈ allCards,
    cardDelta c = some (cardBase c, cardAces c) ∧ ';' ∉ c ∧ c ≠ [] := by decide

/-- A valid card code is one of the 52 codes. -/
theorem validCard_mem (c : Str) (h : validCard c = true) : c ∈ allCards := by
  simpa [validCard] using h

/-- The `+= ";" + card` accumulation of `getPlayerCards`, in closed
form. -/
def joinTail : List Str → Str
  | [] => []
  | x :: xs => ';' :: x ++ joinTail xs

theorem foldl_semijoin (rest : List Str) (init : Str) :
    rest.foldl (fun acc card => acc ++ [';'] ++ card) init = init ++ joinTail rest := by
  induction rest generalizing init with
  | nil => simp [joinTail]
  | cons x xs ih =>
    rw [List.foldl_cons, ih, joinTail]
    simp

theorem getPlayerCards_cons (c : Str) (rest : List Str) :
    getPlayerCards (c :: rest) = c ++ joinTail rest := by
  rw [getPlayerCards, foldl_semijoin]

/-- Splitting the `;`-joined hand of non-empty semicolon-free cards
recovers the card list. -/
theorem splitString_joinTail (rest : List Str) : ∀ (c : Str), ';' ∉ c → c ≠ [] →
    (∀ x ∈ rest, ';' ∉ x ∧ x ≠ []) →
    splitString (c ++ joinTail rest) ';' = c :: rest := by
  induction rest with
  | nil =>
    intro c hc hcne _
    rw [joinTail, List.append_nil, splitString, splitStringGo_no_delim ';' c hc []]
    simp [hcne]
  | cons x xs ih =>
    intro c hc hcne hrest
    have hx := hrest x (List.mem_cons_self x xs)
    have h2 : (c ++ joinTail (x :: xs) : Str) = c ++ ';' :: (x ++ joinTail xs) := by
      rw [joinTail]; rfl
    rw [h2, splitString, splitStringGo_delim ';' c (x ++ joinTail xs) hc []]
    have := ih x hx.1 hx.2 (fun y hy => hrest y (List.mem_cons_of_mem x hy))
    rw [splitString] at this
    simp [this]

/-- The accumulating loop on a list of valid cards sums the base values
and counts the aces. -/
theorem scanCards_valid (l : List Str) (hv : ∀ x ∈ l, x ∈ allCards) : ∀ (s : Int) (a : Nat),
    scanCards (s, a) l = some (s + (l.map cardBase).sum, a + (l.map cardAces).sum) := by
  induction l with
  | nil => intro s a; simp [scanCards]
  | cons x xs ih =>
    intro s a
    have hx := (allCards_facts x (hv x (List.mem_cons_self x xs))).1
    rw [scanCards, hx]
    show scanCards (s + cardBase x, a + cardAces x) xs = _
    rw [ih (fun y hy => hv y (List.mem_cons_of_mem x hy))]
    simp [add_assoc]

/-- C9.  Hand-value permutation invariance: for any two orderings of the
same multiset of valid card codes, `calculateHandValue` applied to the
joined hand strings returns the same value. -/
theorem hand_value_perm (l1 l2 : List Str) (hv : ∀ c ∈ l1, validCard c = true)
    (hperm : l1.Perm l2) :
    calculateHandValue (getPlayerCards l1) = calculateHandValue (getPlayerCards l2) := by
  have hv1 : ∀ c ∈ l1, c ∈ allCards := fun c hc => validCard_mem c (hv c hc)
  have hv2 : ∀ c ∈ l2, c ∈ allCards := fun c hc => hv1 c (hperm.mem_iff.mpr hc)
  cases l1 with
  | nil =>
    have : l2 = [] := List.Perm.eq_nil hperm.symm
    rw [this]
  | cons c1 r1 =>
    cases l2 with
    | nil => exact absurd (List.Perm.eq_nil hperm) (by simp)
    | cons c2 r2 =>
      have f1 := allCards_facts c1 (hv1 c1 (List.mem_cons_self c1 r1))
      have f2 := allCards_facts c2 (hv2 c2 (List.mem_cons_self c2 r2))
      rw [getPlayerCards_cons, getPlayerCards_cons, calculateHandValue, calculateHandValue,
        splitString_joinTail r1 c1 f1.2.1 f1.2.2
          (fun y hy =>
            ((allCards_facts y (hv1 y (List.mem_cons_of_mem c1 hy)))).2),
        splitString_joinTail r2 c2 f2.2.1 f2.2.2
          (fun y hy =>
            ((allCards_facts y (hv2 y (List.mem_cons_of_mem c2 hy)))).2),
        scanCards_valid (c1 :: r1) hv1 0 0, scanCards_valid (c2 :: r2) hv2 0 0,
        List.Perm.sum_eq (hperm.map cardBase), List.Perm.sum_eq (hperm.map cardAces)]

/-- C9 witness: the invariance evaluated on the hand `AH,KS,3D` and its
rotation `3D,AH,KS`. -/
theorem hand_value_perm_witness :
    (∀ c ∈ (["AH".data, "KS".data, "3D".data] : List Str), validCard c = true) ∧
    calculateHandValue (getPlayerCards ["AH".data, "KS".data, "3D".data]) =
      calculateHandValue (getPlayerCards ["3D".data, "AH".data, "KS".data]) :=
  ⟨by decide, hand_value_perm _ _ (by decide) (by decide)⟩

/-! ## Credits never go negative

The only writes to `Player::credits` in the sources are the constructor
(1000), the guarded debit in `GameRoom::placeBet`, and the three winning
branches of `GameRoom::getCredits`; the only writes to
`Player::betAmount` are `placeBet` and `Player::resetGameAttributes`.
The per-player evolution of `(credits, betAmount)` is therefore the
following step relation over those translated functions. -/

/-- One mutation of a player's `(credits, betAmount)` pair. -/
inductive CreditStep : Int × Int → Int × Int → Prop
  /-- A successful `GameRoom::placeBet` on some heap. -/
  | placeBetStep (h : Heap) (pid : Nat) (amount : Int) (h1 : Heap)
      (hp : placeBet h pid amount = some h1) :
      CreditStep ((h pid).credits, (h pid).betAmount) ((h1 pid).credits, (h1 pid).betAmount)
  /-- A settlement by `GameRoom::getCredits` against some hands. -/
  | settleStep (pc dc : Str) (c b c1 w : Int) (payload : Str)
      (hs : getCredits pc dc b c = some (c1, w, payload)) :
      CreditStep (c, b) (c1, b)
  /-- A round reset by `Player::resetGameAttributes`. -/
  | resetStep (p : LPlayer) :
      CreditStep (p.credits, p.betAmount)
        ((resetGameAttributes p).credits, (resetGameAttributes p).betAmount)

/-- A settlement never decreases a non-negative credit balance below zero
when the recorded bet is non-negative: the losing branch leaves the
credits untouched and every winning branch adds a non-negative amount. -/
theorem getCredits_nonneg (pc dc : Str) (c b c1 w : Int) (payload : Str)
    (hs : getCredits pc dc b c = some (c1, w, payload)) (hc : 0 ≤ c) (hb : 0 ≤ b) :
    0 ≤ c1 := by
  have htd : 0 ≤ (3 * b).tdiv 2 := by
    rw [← Int.fdiv_eq_tdiv (by omega) (by omega), Int.fdiv_eq_ediv _ (by omega)]
    exact Int.ediv_nonneg (by omega) (by omega)
  rw [getCredits] at hs
  rcases hhv : calculateHandValue pc with _ | p <;> rw [hhv] at hs
  · exact absurd hs (by simp)
  rcases hdv : calculateHandValue dc with _ | d <;> rw [hdv] at hs
  · exact absurd hs (by simp)
  simp only [blackjackPayout] at hs
  split_ifs at hs <;> (injection hs with h1; injection h1 with hc1 _) <;> omega

/-- C5.  Credits invariant: a player starts at `(credits, betAmount) =
(1000, 0)` and every reachable pair under the credit-affecting operations
of the source keeps `credits ≥ 0` (and `betAmount ≥ 0`). -/
theorem credits_nonneg (s : Int × Int)
    (h : Relation.ReflTransGen CreditStep (1000, 0) s) : 0 ≤ s.1 := by
  suffices hstrong : 0 ≤ s.1 ∧ 0 ≤ s.2 from hstrong.1
  induction h with
  | refl => exact ⟨by omega, by omega⟩
  | tail hsteps hstep ih =>
    rename_i s1 s2
    cases hstep with
    | placeBetStep h pid amount h1 hp =>
      rw [placeBet] at hp
      split_ifs at hp with hcond
      injection hp with hh1
      rw [← hh1]
      simp [hset]
      omega
    | settleStep pc dc c b c1 w payload hs =>
      exact ⟨getCredits_nonneg pc dc c b c1 w payload hs ih.1 ih.2, ih.2⟩
    | resetStep p =>
      exact ⟨ih.1, by simp [resetGameAttributes]⟩

/-- C5 witness: after one concrete bet of 100 from the initial 1000, the
pair `(900, 100)` is reachable and its credits are non-negative. -/
theorem credits_nonneg_witness : (0:Int) ≤ ((900:Int), (100:Int)).1 :=
  credits_nonneg (900, 100)
    (Relation.ReflTransGen.single
      (CreditStep.placeBetStep (fun _ => ⟨0, [], .LOBBY, 1000, -1, 0, false, false,
        false, false, 0, [], true⟩) 0 100 _ rfl))

/-! ## Concrete scenario states

A one-player lobby used to evaluate the pipeline at reachable
configurations: alice (player id 0, socket 10) bet 100 from 1000 credits,
was dealt `AH,KS`, and the dealer shows `KH,QH` (20). -/

/-- Alice right after standing on her opening hand. -/
def scenPlayer : LPlayer :=
  { fd := 10, nickname := "alice".data, pstate := .IN_GAMEROOM, credits := 900,
    roomId := 0, invalidMsgCount := 0, offline := false, hasTurn := false,
    isReady := false, placedBet := true, betAmount := 100,
    playerCards := ["AH".data, "KS".data], isWaiting := false }

/-- Heap holding alice at id 0. -/
def scenHeap : Heap := fun _ => scenPlayer

/-- Her room in PLAYING with the turn queue just emptied by her STAND. -/
def scenRoomPlaying : RoomM :=
  { roomId := 0, gameState := .PLAYING, players := [0],
    dealerCards := ["KH".data, "QH".data], turnOrder := [] }

/-- The lobby around that room. -/
def scenStPlaying : LobbyM :=
  { heap := scenHeap, online := [(10, 0)], disconnectedPlayers := [],
    rooms := [(0, scenRoomPlaying)], playerStateChanged := false }

/-- The same room before the round, in WAITING_FOR_PLAYERS. -/
def scenRoomWaiting : RoomM := { scenRoomPlaying with gameState := .WAITING_FOR_PLAYERS }

/-- C2.  The head reads of the turn queue are not guarded: in the normal
end of a round (the one seated player has stood, so the queue is empty),
rendering the `GAMESTAT` snapshot evaluates `turnOrder.front()` on an
empty `std::deque` — the `None` branch of the embedded access — and the
PLAYING→ROUND_END tick broadcasts exactly that snapshot; likewise
`GameRoom::removePlayer` performs the head read on the empty queue of a
WAITING room (the embedded read yields `none`) and still erases the
seat. -/
theorem turn_queue_head_unsafe :
    scenRoomPlaying.turnOrder = [] ∧ scenRoomPlaying.players ≠ [] ∧
    getGameState scenHeap scenRoomPlaying = none ∧
    (updatePlayingArm [] 0 scenStPlaying 0).map (fun r => r.2.2) =
      some [Out.uni 10 "GAMESTAT".data none,
            Out.uni 10 "ROUNDEND".data (some "1050;150".data)] ∧
    scenRoomWaiting.turnOrder.head? = none ∧
    (GameRoom.removePlayer scenHeap scenRoomWaiting 0).2.1.players = [] :=
  ⟨rfl, by decide, rfl, rfl, rfl, rfl⟩

/-- Alice as a fresh logged-in lobby player with the default credits. -/
def scenLobbyPlayer : LPlayer :=
  { scenPlayer with pstate := .LOBBY, roomId := -1, credits := 1000,
                    placedBet := false, betAmount := 0, playerCards := [] }

/-- A lobby with alice (lobby state) and one empty WAITING room. -/
def scenStLobby : LobbyM :=
  { heap := (fun _ => scenLobbyPlayer), online := [(10, 0)], disconnectedPlayers := [],
    rooms := [(0, { roomId := 0, gameState := .WAITING_FOR_PLAYERS, players := [],
                    dealerCards := [], turnOrder := [] })],
    playerStateChanged := false }

/-- C10.  The `JOIN____` room-id conversion is not total over its inputs:
for the non-numeric argument `abc` the unguarded `std::stoi` throws
(embedded: the handler yields `none`, no reply ever produced), while a
numeric argument is answered; by contrast the bet handler guards its
`std::stoi` and answers `NACK__BT` on the same non-numeric input. -/
theorem join_argument_escape :
    Lobby.handleJoin scenStLobby 0 ["abc".data] = none ∧
    stoi? "abc".data = none ∧
    (Lobby.handleJoin scenStLobby 0 ["0".data]).isSome = true ∧
    (handleStateBetting scenStLobby 0 0 ⟨"BT______".data, ["abc".data], true⟩).2 =
      [Out.uni 10 "NACK__BT".data (some "Invalid bet amount".data)] :=
  ⟨rfl, rfl, by rfl, rfl⟩

/-! ## Disconnect handling -/

theorem alookup_aset_self {κ α : Type} [DecidableEq κ] (l : List (κ × α)) (k : κ) (a : α) :
    alookup (aset l k a) k = some a := by
  induction l with
  | nil => simp [aset, alookup]
  | cons kv rest ih =>
    by_cases h : kv.1 = k
    · simp [aset, h, alookup]
    · simp [aset, h, alookup, ih]

theorem alookup_aerase_self {κ α : Type} [DecidableEq κ] (l : List (κ × α)) (k : κ) :
    alookup (aerase l k) k = none := by
  induction l with
  | nil => simp [aerase, alookup]
  | cons kv rest ih =>
    by_cases h : kv.1 = k
    · simpa [aerase, h] using ih
    · simpa [aerase, h, alookup] using ih

/-- `GameRoom::playerStand` only manipulates the turn queue. -/
theorem playerStand_players (r : RoomM) (pid : Nat) :
    (playerStand r pid).players = r.players := by
  rw [playerStand]
  split
  · rfl
  · split_ifs <;> rfl

/-- C8.  Disconnect frame effect (`Lobby::removePlayer`): for a seated
player whose room exists, if the room is PLAYING the room directory is
untouched (the seat is kept) and the only messages are the game-state
broadcast; in any other room state the player's seat is erased from the
room's player list.  In both cases a player with a nickname is moved into
the disconnected map keyed by that nickname, and the socket entry is
erased from the online map. -/
theorem disconnect_frame_effect (st : LobbyM) (fd pid : Nat) (r : RoomM)
    (hon : alookup st.online fd = some pid)
    (hpst : (st.heap pid).pstate = .IN_GAMEROOM)
    (hr : alookup st.rooms (st.heap pid).roomId = some r)
    (hmem : pid ∈ r.players) :
    (r.gameState = .PLAYING →
      (Lobby.removePlayer st fd).1.rooms = st.rooms ∧
      (Lobby.removePlayer st fd).2 =
        broadcastMessage st.heap r "GAMESTAT".data (getGameState st.heap r)) ∧
    (r.gameState ≠ .PLAYING →
      ∃ r1, alookup (Lobby.removePlayer st fd).1.rooms (st.heap pid).roomId = some r1 ∧
        r1.players = r.players.erase pid) ∧
    ((st.heap pid).nickname ≠ [] →
      alookup (Lobby.removePlayer st fd).1.disconnectedPlayers (st.heap pid).nickname
        = some pid) ∧
    alookup (Lobby.removePlayer st fd).1.online fd = none := by
  refine ⟨?_, ?_, ?_, ?_⟩
  · intro hplay
    simp only [Lobby.removePlayer, hon, hpst, hr, hplay]
    split_ifs <;> simp_all
  · intro hplay
    refine ⟨(GameRoom.removePlayer st.heap r pid).2.1, ?_, ?_⟩
    · simp only [Lobby.removePlayer, hon, hpst, hr]
      split_ifs <;> simp_all [alookup_aset_self]
    · simp only [GameRoom.removePlayer, if_pos hmem]
      split_ifs <;> simp [playerStand_players]
  · intro hnick
    simp only [Lobby.removePlayer, hon, hpst, hr]
    split_ifs <;> simp_all [alookup_aset_self]
  · simp only [Lobby.removePlayer, hon, hpst, hr]
    split_ifs <;> simp_all [alookup_aerase_self]

/-- C8 witness: dropping alice's socket while her room is PLAYING keeps
the room directory untouched, moves her into the disconnected map keyed
by her nickname, and erases her socket from the online map. -/
theorem disconnect_frame_effect_witness :
    (Lobby.removePlayer scenStPlaying 10).1.rooms = scenStPlaying.rooms ∧
    alookup (Lobby.removePlayer scenStPlaying 10).1.disconnectedPlayers "alice".data
      = some 0 ∧
    alookup (Lobby.removePlayer scenStPlaying 10).1.online 10 = none :=
  have h := disconnect_frame_effect scenStPlaying 10 0 scenRoomPlaying rfl rfl rfl
    (by decide)
  ⟨(h.1 rfl).1, h.2.2.1 (by decide), h.2.2.2⟩

/-! ## ROUND_END exit discipline -/

theorem alookup_aset_ne {κ α : Type} [DecidableEq κ] (l : List (κ × α)) (k k1 : κ)
    (a : α) (hne : k ≠ k1) : alookup (aset l k a) k1 = alookup l k1 := by
  induction l with
  | nil => simp [aset, alookup, hne]
  | cons kv rest ih =>
    by_cases h : kv.1 = k
    · simp [aset, h, alookup, hne]
    · simp [aset, h, alookup, ih]

theorem playerStand_gameState (r : RoomM) (pid : Nat) :
    (playerStand r pid).gameState = r.gameState := by
  rw [playerStand]
  split
  · rfl
  · split_ifs <;> rfl

theorem removePlayer_gameState (h : Heap) (r : RoomM) (pid : Nat) :
    (GameRoom.removePlayer h r pid).2.1.gameState = r.gameState := by
  rw [GameRoom.removePlayer]
  split_ifs with hmem
  · split
    · dsimp only
      split_ifs
      · simp [playerStand_gameState]
      · rfl
    · rfl
  · rfl

/-- `Lobby::destroyPlayer` can remove a player from a room, but it never
changes any room's state. -/
theorem destroyPlayer_room_state (st : LobbyM) (fd : Nat) (rid : Int) (r : RoomM)
    (hr : alookup st.rooms rid = some r) :
    ∃ r2, alookup (Lobby.destroyPlayer st fd).1.rooms rid = some r2 ∧
      r2.gameState = r.gameState := by
  rw [Lobby.destroyPlayer]
  rcases hon : alookup st.online fd with _ | pid2
  · exact ⟨r, hr, rfl⟩
  · by_cases hst : (st.heap pid2).pstate = PlayerState.IN_GAMEROOM
    · rcases hr2 : alookup st.rooms (st.heap pid2).roomId with _ | rX
      · simp only [hst, if_pos, hr2]
        exact ⟨r, hr, rfl⟩
      · simp only [hst, if_pos, hr2]
        by_cases heq : (st.heap pid2).roomId = rid
        · refine ⟨(GameRoom.removePlayer st.heap rX pid2).2.1, ?_, ?_⟩
          · simp [heq, alookup_aset_self]
          · rw [removePlayer_gameState]
            rw [heq] at hr2
            rw [hr] at hr2
            injection hr2 with h2
            rw [h2]
        · exact ⟨r, by simp [alookup_aset_ne _ _ _ _ heq, hr], rfl⟩
    · simp only [if_neg hst]
      exact ⟨r, hr, rfl⟩

/-- `GameRoom::handleInvalidMessage` never changes any room's state. -/
theorem handleInvalidMessage_room_state (st : LobbyM) (rid : Int) (pid : Nat) (r : RoomM)
    (hr : alookup st.rooms rid = some r) :
    ∃ r2, alookup (GameRoom.handleInvalidMessage st rid pid).1.rooms rid = some r2 ∧
      r2.gameState = r.gameState := by
  simp only [GameRoom.handleInvalidMessage]
  split_ifs with hcount
  · rw [hr]
    obtain ⟨r3, h3, h3s⟩ := destroyPlayer_room_state
      (LobbyM.mk
        (GameRoom.removePlayer
          (hset st.heap pid
            { st.heap pid with invalidMsgCount := (st.heap pid).invalidMsgCount + 1 })
          r pid).1
        st.online st.disconnectedPlayers
        (aset st.rooms rid
          (GameRoom.removePlayer
            (hset st.heap pid
              { st.heap pid with invalidMsgCount := (st.heap pid).invalidMsgCount + 1 })
            r pid).2.1)
        st.playerStateChanged)
      ((GameRoom.removePlayer
          (hset st.heap pid
            { st.heap pid with invalidMsgCount := (st.heap pid).invalidMsgCount + 1 })
          r pid).1 pid).fd
      rid
      (GameRoom.removePlayer
        (hset st.heap pid
          { st.heap pid with invalidMsgCount := (st.heap pid).invalidMsgCount + 1 })
        r pid).2.1
      (alookup_aset_self _ _ _)
    exact ⟨r3, h3, by rw [h3s, removePlayer_gameState]⟩
  · exact ⟨r, hr, rfl⟩

/-- Player attributes after the reset loop of `ResetDefaultState`: the
loop never sets readiness, so it stays false once false. -/
theorem resetFoldl_ready_pres (l : List Nat) (h : Heap) (pid : Nat)
    (hp : (h pid).isReady = false) :
    ((l.foldl (fun hh q => hset hh q (resetGameAttributes (hh q))) h) pid).isReady = false := by
  induction l generalizing h with
  | nil => exact hp
  | cons a rest ih =>
    apply ih
    by_cases hpa : pid = a
    · simp [hset, hpa, resetGameAttributes]
    · simpa [hset, hpa] using hp

/-- Every player touched by the reset loop ends not ready. -/
theorem resetFoldl_ready (l : List Nat) (h : Heap) (pid : Nat) (hm : pid ∈ l) :
    ((l.foldl (fun hh q => hset hh q (resetGameAttributes (hh q))) h) pid).isReady = false := by
  induction l generalizing h with
  | nil => exact absurd hm (by simp)
  | cons a rest ih =>
    by_cases hmem : pid ∈ rest
    · exact ih _ hmem
    · have hpa : pid = a := by
        rcases List.mem_cons.mp hm with h1 | h2
        · exact h1
        · exact absurd h2 hmem
      rw [List.foldl_cons]
      apply resetFoldl_ready_pres
      simp [hset, hpa, resetGameAttributes]

/-- After the ROUND_END arm of `update`, the room is back in
WAITING_FOR_PLAYERS with dealer hand and turn queue cleared, whatever the
nested WAITING arm did. -/
theorem updateRoundEndArm_room (st : LobbyM) (rid : Int) (r : RoomM)
    (hr : alookup st.rooms rid = some r) :
    alookup (updateRoundEndArm st rid).1.rooms rid =
      some { r with gameState := .WAITING_FOR_PLAYERS, dealerCards := [],
                    turnOrder := [] } := by
  simp only [updateRoundEndArm, resetDefaultState, hr]
  by_cases hpl : r.players = []
  · simp [hpl, alookup_aset_self]
  · simp only [if_neg (by simpa using hpl), updateWaitingArm, alookup_aset_self]
    split_ifs <;> simp [alookup_aset_self]

/-- The ROUND_END arm leaves the heap either untouched (empty room) or
equal to the reset fold; in both cases no seated player is ready. -/
theorem updateRoundEndArm_ready (st : LobbyM) (rid : Int) (r : RoomM)
    (hr : alookup st.rooms rid = some r) (hne : r.players ≠ []) (pid : Nat)
    (hm : pid ∈ r.players) :
    ((updateRoundEndArm st rid).1.heap pid).isReady = false := by
  simp only [updateRoundEndArm, resetDefaultState, hr, if_neg (by simpa using hne),
    updateWaitingArm, alookup_aset_self]
  split_ifs <;> simp [alookup_aset_self, resetFoldl_ready _ _ _ hm]

/-- Any `update` of a room currently in ROUND_END lands the room in
WAITING_FOR_PLAYERS. -/
theorem update_roundEnd_state (draws : List Str) (elapsed : Int) (st : LobbyM)
    (rid : Int) (r : RoomM) (hr : alookup st.rooms rid = some r)
    (hre : r.gameState = .ROUND_END) :
    GameRoom.update draws elapsed st rid =
      some (draws, (updateRoundEndArm st rid).1, (updateRoundEndArm st rid).2) ∧
    (alookup (updateRoundEndArm st rid).1.rooms rid).map RoomM.gameState =
      some .WAITING_FOR_PLAYERS := by
  constructor
  · simp only [GameRoom.update, hr, hre]
  · rw [updateRoundEndArm_room st rid r hr]
    rfl

/-- A trailing `update` run right after the ROUND_END arm is a no-op: the
room is WAITING_FOR_PLAYERS and nobody is ready. -/
theorem update_after_roundEndArm (draws : List Str) (elapsed : Int) (st : LobbyM)
    (rid : Int) (r : RoomM) (hr : alookup st.rooms rid = some r) :
    GameRoom.update draws elapsed (updateRoundEndArm st rid).1 rid =
      some (draws, (updateRoundEndArm st rid).1, []) := by
  have hrw := updateRoundEndArm_room st rid r hr
  simp only [GameRoom.update, hrw, updateWaitingArm]
  split_ifs with hcond
  · exfalso
    by_cases hpl : r.players = []
    · rw [hpl] at hcond
      exact absurd hcond.1 (by simp)
    · obtain ⟨q, hq⟩ := List.exists_mem_of_ne_nil r.players hpl
      have hready := updateRoundEndArm_ready st rid r hr hpl q hq
      have hall := hcond.2
      rw [areAllPlayersReady] at hall
      have hq2 := List.all_eq_true.mp hall q hq
      rw [hready] at hq2
      exact absurd hq2 (by decide)
  · rfl

/-- Shape of `GameRoom::handle` on a non-`REC__GAM` message in ROUND_END:
per-state handler, snapshot broadcast, then the unconditional trailing
`update()`. -/
theorem handle_roundEnd_shape (draws : List Str) (elapsed : Int) (st : LobbyM)
    (rid : Int) (r : RoomM) (pid : Nat) (msg : Message)
    (hr : alookup st.rooms rid = some r) (hre : r.gameState = .ROUND_END)
    (hcmd : msg.command ≠ "REC__GAM".data)
    (s1 : LobbyM) (o1 : List Out)
    (hs : handleStateRoundEnd st rid pid msg = (s1, o1))
    (d2 : List Str) (st2 : LobbyM) (o2 : List Out)
    (hu : GameRoom.update draws elapsed s1 rid = some (d2, st2, o2)) :
    GameRoom.handle draws elapsed st rid pid msg =
      some (d2, st2, (o1 ++ handleDispatchBroadcast s1 rid false) ++ o2) := by
  simp only [GameRoom.handle, hr, if_neg hcmd, hre, hs, hu]

/-- C3 (amended).  A room in ROUND_END leaves it in exactly these ways:
(a) the per-tick `Lobby::update` skips the room while any player is
online; (b) the per-tick update resets it to WAITING_FOR_PLAYERS when
every player is offline; (c) a `REC__GAM` message leaves the lobby state
untouched; (d) every other message dispatched to the room handler —
`PAG_____` with any credit balance, `STAND___`, invalid commands, all of
them — lands the room in WAITING_FOR_PLAYERS, because `GameRoom::handle`
unconditionally calls `update()` after dispatch and its ROUND_END arm
resets the room. -/
theorem roundend_exit (draws : List Str) (elapsed : Int) (st : LobbyM) (rid : Int)
    (r : RoomM) (pid : Nat) (msg : Message)
    (hr : alookup st.rooms rid = some r) (hre : r.gameState = .ROUND_END) :
    (areAllPlayersOffline st.heap r = false →
      lobbyRoomTick draws elapsed st rid = some (draws, st, [])) ∧
    (areAllPlayersOffline st.heap r = true →
      ∃ st1 outs, lobbyRoomTick draws elapsed st rid = some (draws, st1, outs) ∧
        (alookup st1.rooms rid).map RoomM.gameState = some .WAITING_FOR_PLAYERS) ∧
    (msg.command = "REC__GAM".data →
      ∃ outs, GameRoom.handle draws elapsed st rid pid msg = some (draws, st, outs)) ∧
    (msg.command ≠ "REC__GAM".data →
      ∃ st1 outs, GameRoom.handle draws elapsed st rid pid msg = some (draws, st1, outs) ∧
        (alookup st1.rooms rid).map RoomM.gameState = some .WAITING_FOR_PLAYERS) := by
  refine ⟨?_, ?_, ?_, ?_⟩
  · intro hoff
    simp only [lobbyRoomTick, hr]
    rw [if_neg (by simp [hre, hoff])]
  · intro hoff
    have hu := update_roundEnd_state draws elapsed st rid r hr hre
    refine ⟨(updateRoundEndArm st rid).1, (updateRoundEndArm st rid).2, ?_, hu.2⟩
    simp only [lobbyRoomTick, hr]
    rw [if_pos (by simp [hre, hoff]), hu.1]
  · intro hcmd
    refine ⟨broadcastMessage st.heap r "ROMSTAUP".data (some (getRoomState st.heap r)), ?_⟩
    simp only [GameRoom.handle, hr, if_pos hcmd]
    rw [if_neg (by simp [hre])]
  · intro hcmd
    by_cases hpag : msg.command = "PAG_____".data
    · by_cases hcred : (st.heap pid).credits ≤ 0
      · have hs : handleStateRoundEnd st rid pid msg =
            (st, [.uni (st.heap pid).fd "NACK_PAG".data
              (some "Insufficient credits to continue".data)]) := by
          simp only [handleStateRoundEnd, hpag]
          rw [if_pos trivial, if_pos hcred]
        have hu := update_roundEnd_state draws elapsed st rid r hr hre
        exact ⟨(updateRoundEndArm st rid).1, _,
          handle_roundEnd_shape draws elapsed st rid r pid msg hr hre hcmd _ _ hs
            draws _ _ hu.1, hu.2⟩
      · have hs : handleStateRoundEnd st rid pid msg =
            ((updateRoundEndArm st rid).1, (updateRoundEndArm st rid).2 ++
              [.uni (st.heap pid).fd "ACK__PAG".data (some (intToStr rid))]) := by
          simp only [handleStateRoundEnd, hpag]
          rw [if_pos trivial, if_neg hcred]
        have hu := update_after_roundEndArm draws elapsed st rid r hr
        refine ⟨(updateRoundEndArm st rid).1, _,
          handle_roundEnd_shape draws elapsed st rid r pid msg hr hre hcmd _ _ hs
            draws _ _ hu, ?_⟩
        rw [updateRoundEndArm_room st rid r hr]
        rfl
    · have hs : handleStateRoundEnd st rid pid msg =
          ((GameRoom.handleInvalidMessage st rid pid).1,
            (GameRoom.handleInvalidMessage st rid pid).2 ++
              [.uni (st.heap pid).fd "NACK_CMD".data
                (some "Invalid command during ROUND_END".data)]) := by
        simp only [handleStateRoundEnd]
        rw [if_neg hpag]
      obtain ⟨r2, hr2, hr2s⟩ :=
        handleInvalidMessage_room_state st rid pid r hr
      have hre2 : r2.gameState = .ROUND_END := by rw [hr2s, hre]
      have hu := update_roundEnd_state draws elapsed
        (GameRoom.handleInvalidMessage st rid pid).1 rid r2 hr2 hre2
      exact ⟨(updateRoundEndArm (GameRoom.handleInvalidMessage st rid pid).1 rid).1, _,
        handle_roundEnd_shape draws elapsed st rid r pid msg hr hre hcmd _ _ hs
          draws _ _ hu.1, hu.2⟩

/-- Alice's room right after settlement, in ROUND_END. -/
def scenRoomRoundEnd : RoomM := { scenRoomPlaying with gameState := .ROUND_END }

/-- The lobby around that ROUND_END room, alice online. -/
def scenStRoundEnd : LobbyM := { scenStPlaying with rooms := [(0, scenRoomRoundEnd)] }

/-- C3 counterexample: with alice online (so the tick path does not fire)
and a message that is not `PAG_____` — a stray `STAND___` — the room
still leaves ROUND_END: the trailing `update()` of `GameRoom::handle`
resets it to WAITING_FOR_PLAYERS. -/
theorem roundend_exit_counterexample :
    areAllPlayersOffline scenStRoundEnd.heap scenRoomRoundEnd = false ∧
    ("STAND___".data : Str) ≠ "PAG_____".data ∧
    scenRoomRoundEnd.gameState = .ROUND_END ∧
    (GameRoom.handle [] 0 scenStRoundEnd 0 0 ⟨"STAND___".data, [], true⟩).map
      (fun x => (alookup x.2.1.rooms 0).map RoomM.gameState) =
      some (some .WAITING_FOR_PLAYERS) :=
  ⟨rfl, by decide, rfl, rfl⟩

/-- C3 witness: the amended exit characterization applied to the concrete
ROUND_END room and the `STAND___` message. -/
theorem roundend_exit_witness :
    ∃ st1 outs, GameRoom.handle [] 0 scenStRoundEnd 0 0 ⟨"STAND___".data, [], true⟩ =
        some ([], st1, outs) ∧
      (alookup st1.rooms 0).map RoomM.gameState = some .WAITING_FOR_PLAYERS :=
  (roundend_exit [] 0 scenStRoundEnd 0 scenRoomRoundEnd 0 ⟨"STAND___".data, [], true⟩
    rfl rfl).2.2.2 (by decide)

end UPS
